import Mathlib

/-!
# Verification of the Cursor chat extraction engine (contextmemory)

Shallow embedding of the chat-reconstruction subsystem of the
`contextmemory` repository: the key-value store reader, the schema
parsers for the `aiService.prompts`, `aiService.generations` and
`composer.composerData` keys of the Cursor store, the content-based
role classifier, the title resolution chain, and the cross-workspace
facade (`GetChatData`, `GetChatByID`, `ListAllChats`).

Modelling conventions:
 * Go strings are modelled as Lean `String`, with lengths and slicing at
   character granularity. All string constants in the embedded code are
   ASCII, where the byte-based `len` and slicing of Go coincide with
   character-based length and slicing. Apostrophes inside string
   literals are written with the escape `\x27`.
 * Go `time.Time` values are modelled as `Option Int` (Unix seconds);
   `none` models the zero `time.Time` (`IsZero`), `some s` an instant.
 * `time.Now()` is modelled by threading an explicit parameter
   `now : Int` (Unix seconds) through the functions that consult the
   clock.
 * JSON documents are modelled by the inductive `Json` below; the
   behaviour of `encoding/json.Unmarshal` on each concrete target
   struct is modelled by an explicit decoder on `Json` (missing and
   null fields keep zero values, type mismatches fail).
 * Fallible Go functions returning `(T, error)` are modelled with
   `Except String T`; a Go nil-pointer dereference (runtime panic) is
   modelled by an outer `Option` whose `none` denotes the panic.

The repository snapshot contains two historical versions of the prompts
parser, which we embed side by side:
 * namespace `V1`: `src/cmd/cmctl/internal/cursor/parser.go`
   (index-parity role assignment; no nil-check before dereferencing the
   single chat pointer);
 * namespace `V2`: the cursor parser variant in `src/unnamed/part_017`
   (content-heuristic role assignment, generations parser, and the
   "Fix nil pointer bug" guard).
-/

/-! ## Data model (src/cmd/cmctl/internal/cursor/models.go) -/

/-- `Message` from models.go: one message of a chat.
`createdAt = none` models the zero `time.Time`. -/
structure Message where
  id : String
  role : String
  content : String
  timestamp : Int
  createdAt : Option Int := none
deriving DecidableEq, Repr

/-- `ChatTab` from models.go: a single chat conversation. -/
structure ChatTab where
  id : String
  title : String
  messages : List Message
  timestamp : Int
  createdAt : Option Int := none
  updatedAt : Option Int := none
deriving DecidableEq, Repr

/-- `ChatData` from models.go: the collection of chat tabs of one workspace. -/
structure ChatData where
  tabs : List ChatTab
deriving DecidableEq, Repr

/-! ## Case-insensitive search helpers (models.go) -/

/-- `toLower` from models.go: byte-wise ASCII lowering (bytes outside
`'A'..'Z'` are left untouched), modelled at character granularity. -/
def toLower (s : String) : String :=
  String.mk (s.data.map fun c => if 'A' ≤ c ∧ c ≤ 'Z' then Char.ofNat (c.toNat + 32) else c)

/-- Scan of the loop of `findIgnoreCase`: the first index at which `sl` occurs
as a contiguous sublist of `tl`. -/
def findSublist : List Char → List Char → Option Nat
  | t, s =>
    if s.isPrefixOf t then some 0
    else match t with
      | [] => none
      | _ :: t' => (findSublist t' s).map (· + 1)

/-- `findIgnoreCase` from models.go: position of `substr` in `text`,
case-insensitively, `-1` when absent. -/
def findIgnoreCase (text substr : String) : Int :=
  match findSublist (toLower text).data (toLower substr).data with
  | some n => (n : Int)
  | none => -1

/-- `containsIgnoreCase` from models.go. Note the source requires
`len(text) > len(substr)` before consulting `findIgnoreCase`, so two
strings of equal length that differ only in case do NOT match. -/
def containsIgnoreCase (text substr : String) : Bool :=
  text.length ≥ substr.length &&
    (text == substr ||
      (text.length > substr.length && findIgnoreCase text substr ≥ 0))

/-! ## Role classifier (src/unnamed/part_017) -/

/-- The `userMarkers` list of `containsUserMarkers`. -/
def userMarkers : List String :=
  ["@", "?", "Can you", "How do I", "What is", "Please", "I want", "I need",
   "Let\x27s", "Could you", "Would you", "Show me", "Help me", "I\x27m trying"]

/-- `containsUserMarkers` from part_017: checks if content looks like user input. -/
def containsUserMarkers (content : String) : Bool :=
  userMarkers.any fun marker => containsIgnoreCase content marker

/-- The `assistantMarkers` list of `containsAssistantMarkers`. -/
def assistantMarkers : List String :=
  ["I\x27ll", "I can", "Let me", "Here\x27s", "You can", "This will",
   "```", "Here are", "To do this", "First,", "Next,", "Finally,",
   "## ", "### ", "**", "- [", "1. ", "2. ", "3. "]

/-- `containsAssistantMarkers` from part_017: checks if content looks like
an assistant response. -/
def containsAssistantMarkers (content : String) : Bool :=
  assistantMarkers.any fun marker => containsIgnoreCase content marker

/-- `determineRoleFromContent` from part_017. The `index` parameter is
declared by the source but never used by its body. Precedence: assistant
markers, then user markers, then the 300-character length heuristic. -/
def determineRoleFromContent (content : String) (_index : Nat) : String :=
  if containsAssistantMarkers content then "assistant"
  else if containsUserMarkers content then "user"
  else if content.length > 300 then "assistant"
  else "user"

/-! ## JSON documents and the decoders modelling encoding/json -/

/-- A JSON document. Numbers are modelled as integers: every numeric
field of the embedded structs has a Go integer type. -/
inductive Json where
  | null
  | bool (b : Bool)
  | num (n : Int)
  | str (s : String)
  | arr (elems : List Json)
  | obj (fields : List (String × Json))

/-- Field lookup in a JSON object; with duplicate keys the last value
wins, as in encoding/json. -/
def Json.getField (fields : List (String × Json)) (name : String) : Option Json :=
  fields.foldl (fun acc kv => if kv.1 == name then some kv.2 else acc) none

/-- Unmarshal a field into a Go `string`: missing and null fields keep
the zero value `""`. -/
def Json.asString : Option Json → Except String String
  | none => .ok ""
  | some .null => .ok ""
  | some (.str s) => .ok s
  | some _ => .error "json: cannot unmarshal value into field of type string"

/-- Unmarshal a field into a Go `int64`: missing and null fields keep
the zero value `0`. -/
def Json.asInt : Option Json → Except String Int
  | none => .ok 0
  | some .null => .ok 0
  | some (.num n) => .ok n
  | some _ => .error "json: cannot unmarshal value into field of type int64"

/-- Unmarshal a field into a Go `bool`. -/
def Json.asBool : Option Json → Except String Bool
  | none => .ok false
  | some .null => .ok false
  | some (.bool b) => .ok b
  | some _ => .error "json: cannot unmarshal value into field of type bool"

/-- Unmarshal a field into a Go `time.Time`. In the source this field is
an RFC3339 timestamp string; we abstract the text parsing of the
external time library and model the instant directly as its Unix-seconds
value carried as a JSON number. Missing and null fields keep the zero
`time.Time`, modelled `none`. -/
def Json.asTime : Option Json → Except String (Option Int)
  | none => .ok none
  | some .null => .ok none
  | some (.num n) => .ok (some n)
  | some _ => .error "json: cannot unmarshal value into field of type time.Time"

/-- Unmarshal one `Message` (models.go) from a JSON document. -/
def decodeMessage : Json → Except String Message
  | .null => .ok { id := "", role := "", content := "", timestamp := 0, createdAt := none }
  | .obj f => do
    let id ← Json.asString (Json.getField f "id")
    let role ← Json.asString (Json.getField f "role")
    let content ← Json.asString (Json.getField f "content")
    let timestamp ← Json.asInt (Json.getField f "timestamp")
    let createdAt ← Json.asTime (Json.getField f "createdAt")
    .ok { id, role, content, timestamp, createdAt }
  | _ => .error "json: cannot unmarshal value into Message"

/-- Unmarshal a `[]Message`: null yields the nil slice. -/
def decodeMessageList : Json → Except String (List Message)
  | .null => .ok []
  | .arr es => es.mapM decodeMessage
  | _ => .error "json: cannot unmarshal value into []Message"

/-- `AIServicePrompt`: the structure of aiService.prompts data
(parser.go and part_017 declare the identical struct). -/
structure AIServicePrompt where
  text : String
  timestamp : Int := 0
  id : String := ""
  role : String := ""
  createdAt : Option Int := none
deriving DecidableEq, Repr

/-- Unmarshal one `AIServicePrompt` from a JSON document. -/
def decodePrompt : Json → Except String AIServicePrompt
  | .null => .ok { text := "" }
  | .obj f => do
    let text ← Json.asString (Json.getField f "text")
    let timestamp ← Json.asInt (Json.getField f "timestamp")
    let id ← Json.asString (Json.getField f "id")
    let role ← Json.asString (Json.getField f "role")
    let createdAt ← Json.asTime (Json.getField f "createdAt")
    .ok { text, timestamp, id, role, createdAt }
  | _ => .error "json: cannot unmarshal value into AIServicePrompt"

/-- Unmarshal a `[]AIServicePrompt`: null yields the nil slice. -/
def decodePromptList : Json → Except String (List AIServicePrompt)
  | .null => .ok []
  | .arr es => es.mapM decodePrompt
  | _ => .error "json: cannot unmarshal value into []AIServicePrompt"

/-! ## Composer title correlation (shared by both parser versions)

The body of the two `if len(composerTitles) == ...` branches of
`parseAIServicePromptsWithTitles`. Go map iteration order is
unspecified; the association list models one iteration order. -/

/-- The composer-title application of `parseAIServicePromptsWithTitles`:
a single title is applied unconditionally; with several titles the
first non-empty one replaces the `"AI Service Chat"` placeholder. -/
def applyComposerTitles (chatTab : ChatTab) (composerTitles : List (String × String)) : ChatTab :=
  if composerTitles.length == 1 then
    match composerTitles with
    | (_, title) :: _ => { chatTab with title := title }
    | [] => chatTab
  else if composerTitles.length > 1 then
    match composerTitles.find? (fun kv => chatTab.title == "AI Service Chat" && kv.2 != "") with
    | some kv => { chatTab with title := kv.2 }
    | none => chatTab
  else chatTab

/-! ## V1: src/cmd/cmctl/internal/cursor/parser.go -/

namespace V1

/-- The loop body of `parseAIServicePromptsToSingleChat` (parser.go):
role defaults to the parity of the index (even user, odd assistant) and
an explicit role overrides it; the timestamp falls back from the prompt
timestamp to `createdAt` and finally to the clock. -/
def promptToMessage (now : Int) (i : Nat) (prompt : AIServicePrompt) : Message :=
  let role := if i % 2 == 1 then "assistant" else "user"
  let role := if prompt.role != "" then prompt.role else role
  let timestamp := prompt.timestamp
  let timestamp :=
    if timestamp == 0 && !(prompt.createdAt == none) then (prompt.createdAt.getD 0) * 1000
    else timestamp
  let timestamp := if timestamp == 0 then now * 1000 else timestamp
  { id := "prompt-" ++ toString i, role, content := prompt.text, timestamp }

/-- The conversion of the decoded prompt list into the single chat tab
(the straight-line tail of `parseAIServicePromptsToSingleChat`): an
empty prompt list yields the nil chat pointer, modelled `none`. -/
def buildSingleChat (now : Int) (prompts : List AIServicePrompt) : Except String (Option ChatTab) :=
  if prompts.length = 0 then .ok none
  else
    let messages := prompts.enum.map fun ip => promptToMessage now ip.1 ip.2
    .ok (some
      { id := "ai-service-" ++ toString now
        title := "AI Service Chat"
        messages
        timestamp := now * 1000
        createdAt := some now })

/-- `parseAIServicePromptsToSingleChat` (parser.go): value is tried as an
array of prompts, then as a single prompt. -/
def parseAIServicePromptsToSingleChat (now : Int) (value : Json) : Except String (Option ChatTab) :=
  match decodePromptList value with
  | .ok prompts => buildSingleChat now prompts
  | .error _ =>
    match decodePrompt value with
    | .ok p => buildSingleChat now [p]
    | .error _ => .error "failed to parse AI service prompts"

/-- `parseAIServicePromptsWithTitles` (parser.go). This version has no
nil check: when the inner parse yields the nil chat pointer (an empty
prompt list), the title branches and the final `*chatTab` dereference
hit a nil pointer, a runtime panic, modelled by the outer `none`. -/
def parseAIServicePromptsWithTitles (now : Int) (value : Json)
    (composerTitles : List (String × String)) : Option (Except String (List ChatTab)) :=
  match parseAIServicePromptsToSingleChat now value with
  | .error e => some (.error e)
  | .ok none => none
  | .ok (some chatTab) => some (.ok [applyComposerTitles chatTab composerTitles])

end V1

/-! ## V2: the cursor parser variant of src/unnamed/part_017 -/

namespace V2

/-- The loop body of `parseAIServicePromptsToSingleChat` (part_017):
role defaults to user; an explicit role wins; otherwise non-empty
content is classified assistant when longer than 200 characters or
carrying an assistant marker. -/
def promptToMessage (now : Int) (i : Nat) (prompt : AIServicePrompt) : Message :=
  let role := "user"
  let role :=
    if prompt.role != "" then prompt.role
    else
      let content := prompt.text
      if content.length > 0 then
        if content.length > 200 || containsAssistantMarkers content then "assistant" else "user"
      else role
  let timestamp := prompt.timestamp
  let timestamp :=
    if timestamp == 0 && !(prompt.createdAt == none) then (prompt.createdAt.getD 0) * 1000
    else timestamp
  let timestamp := if timestamp == 0 then now * 1000 else timestamp
  { id := "prompt-" ++ toString i, role, content := prompt.text, timestamp }

/-- The conversion of the decoded prompt list into the single chat tab
(the straight-line tail of `parseAIServicePromptsToSingleChat`). -/
def buildSingleChat (now : Int) (prompts : List AIServicePrompt) : Except String (Option ChatTab) :=
  if prompts.length = 0 then .ok none
  else
    let messages := prompts.enum.map fun ip => promptToMessage now ip.1 ip.2
    .ok (some
      { id := "ai-service-" ++ toString now
        title := "AI Service Chat"
        messages
        timestamp := now * 1000
        createdAt := some now })

/-- `parseAIServicePromptsToSingleChat` (part_017). -/
def parseAIServicePromptsToSingleChat (now : Int) (value : Json) : Except String (Option ChatTab) :=
  match decodePromptList value with
  | .ok prompts => buildSingleChat now prompts
  | .error _ =>
    match decodePrompt value with
    | .ok p => buildSingleChat now [p]
    | .error _ => .error "failed to parse AI service prompts"

/-- `parseAIServicePromptsWithTitles` (part_017), carrying the nil-check
fix: the nil chat pointer yields the empty slice instead of a panic. -/
def parseAIServicePromptsWithTitles (now : Int) (value : Json)
    (composerTitles : List (String × String)) : Except String (List ChatTab) :=
  match parseAIServicePromptsToSingleChat now value with
  | .error e => .error e
  | .ok none => .ok []
  | .ok (some chatTab) => .ok [applyComposerTitles chatTab composerTitles]

end V2


/-! ## Go standard library string helpers used by the embedded code -/

/-- The ASCII subset of `unicode.IsSpace`; all trimming exercised here is
over ASCII text. -/
def isSpaceGo (c : Char) : Bool :=
  c == ' ' || c == '\t' || c == '\n' || c == '\x0d' || c == '\x0b' || c == '\x0c'

/-- `strings.TrimSpace`. -/
def trimSpace (s : String) : String :=
  String.mk (((s.data.dropWhile isSpaceGo).reverse.dropWhile isSpaceGo).reverse)

/-- `strings.TrimPrefix`. -/
def trimPrefixGo (s pre : String) : String :=
  if pre.isPrefixOf s then String.mk (s.data.drop pre.length) else s

/-- ASCII lowercase letter test. -/
def isLowerGo (c : Char) : Bool := 'a' ≤ c && c ≤ 'z'

/-- The characters `strings.Title` does not treat as word separators:
per the `isSeparator` helper of the strings package, ASCII
alphanumerics and the underscore. -/
def notSeparatorGo (c : Char) : Bool :=
  ('a' ≤ c && c ≤ 'z') || ('A' ≤ c && c ≤ 'Z') || ('0' ≤ c && c ≤ '9') || c == '_'

/-- Uppercase one ASCII character. -/
def upperChar (c : Char) : Char :=
  if isLowerGo c then Char.ofNat (c.toNat - 32) else c

/-- Walk of the title-casing loop: a character is uppercased when the
preceding character is a separator. -/
def titleCaseAux : Bool → List Char → List Char
  | _, [] => []
  | prevNonSep, c :: cs =>
    (if prevNonSep then c else upperChar c) :: titleCaseAux (notSeparatorGo c) cs

/-- `strings.Title` and `cases.Title(language.English, cases.NoLower)`,
modelled for ASCII: the first letter of every word is uppercased and the
rest is left untouched. -/
def titleCase (s : String) : String := String.mk (titleCaseAux false s.data)

/-! ## Calendar formatting

The source formats instants with the Go layouts `"2006-01-02 15:04:05"`
and `"2006-01-02"` in the local time zone; we model the rendering in UTC
with the standard civil-from-days conversion. -/

/-- Gregorian date of a day count since 1970-01-01 (era decomposition). -/
def civilFromDays (z : Int) : Int × Int × Int :=
  let days := z + 719468
  let era := days.ediv 146097
  let doe := days.emod 146097
  let yoe := (doe - doe.ediv 1460 + doe.ediv 36524 - doe.ediv 146096).ediv 365
  let y := yoe + era * 400
  let doy := doe - (365 * yoe + yoe.ediv 4 - yoe.ediv 100)
  let mp := (5 * doy + 2).ediv 153
  let d := doy - (153 * mp + 2).ediv 5 + 1
  let m := mp + (if mp < 10 then 3 else -9)
  (y + (if m ≤ 2 then 1 else 0), m, d)

/-- Zero-padded two-digit rendering. -/
def pad2 (n : Int) : String :=
  if n < 10 then "0" ++ toString n else toString n

/-- Go layout `"2006-01-02"` of a Unix-seconds instant. -/
def formatDateOnly (secs : Int) : String :=
  let (y, m, d) := civilFromDays (secs.ediv 86400)
  toString y ++ "-" ++ pad2 m ++ "-" ++ pad2 d

/-- Go layout `"2006-01-02 15:04:05"` of a Unix-seconds instant. -/
def formatDateTime (secs : Int) : String :=
  let rem := secs.emod 86400
  formatDateOnly secs ++ " " ++
    pad2 (rem.ediv 3600) ++ ":" ++ pad2 ((rem.emod 3600).ediv 60) ++ ":" ++ pad2 (rem.emod 60)

/-! ## Composer data (parser.go and part_017 declare identical structs) -/

/-- `ComposerEntry` from the composer.composerData schema. -/
structure ComposerEntry where
  type : String
  composerId : String
  name : String
  createdAt : Int
  unifiedMode : String
  forceMode : String
  hasUnreadMessages : Bool
  messages : List Message
deriving DecidableEq, Repr

/-- `ComposerData`: the list of all composers of a workspace. -/
structure ComposerData where
  allComposers : List ComposerEntry
deriving DecidableEq, Repr

/-- Unmarshal one `ComposerEntry` from a JSON document. -/
def decodeComposerEntry : Json → Except String ComposerEntry
  | .null => .ok { type := "", composerId := "", name := "", createdAt := 0,
                   unifiedMode := "", forceMode := "", hasUnreadMessages := false, messages := [] }
  | .obj f => do
    let type ← Json.asString (Json.getField f "type")
    let composerId ← Json.asString (Json.getField f "composerId")
    let name ← Json.asString (Json.getField f "name")
    let createdAt ← Json.asInt (Json.getField f "createdAt")
    let unifiedMode ← Json.asString (Json.getField f "unifiedMode")
    let forceMode ← Json.asString (Json.getField f "forceMode")
    let hasUnreadMessages ← Json.asBool (Json.getField f "hasUnreadMessages")
    let messages ← match Json.getField f "messages" with
      | none => pure []
      | some v => decodeMessageList v
    .ok { type, composerId, name, createdAt, unifiedMode, forceMode, hasUnreadMessages, messages }
  | _ => .error "json: cannot unmarshal value into ComposerEntry"

/-- Unmarshal `ComposerData` from a JSON document. -/
def decodeComposerData : Json → Except String ComposerData
  | .null => .ok { allComposers := [] }
  | .obj f => do
    let allComposers ← match Json.getField f "allComposers" with
      | none => pure []
      | some .null => pure []
      | some (.arr es) => es.mapM decodeComposerEntry
      | some _ => Except.error "json: cannot unmarshal value into []ComposerEntry"
    .ok { allComposers }
  | _ => .error "json: cannot unmarshal value into ComposerData"

/-- The loop body of `parseComposerData` for one head composer: title
from the stored name, else from the unified mode; a placeholder system
message is synthesized when the composer carries no messages. Go
division truncates toward zero, matching `Int.tdiv`. -/
def composerEntryToTab (entry : ComposerEntry) : ChatTab :=
  let title := entry.name
  let title :=
    if title == "" then
      let t := "Composer Chat"
      if entry.unifiedMode != "" then titleCase entry.unifiedMode ++ " Chat" else t
    else title
  let createdSecs := Int.tdiv entry.createdAt 1000
  let tab : ChatTab :=
    { id := entry.composerId, title, messages := entry.messages,
      timestamp := entry.createdAt, createdAt := some createdSecs }
  if tab.messages.length = 0 then
    { tab with messages :=
        [{ id := "composer-info", role := "system",
           content := "Composer session: " ++ entry.unifiedMode ++ " mode, created at " ++
             formatDateTime createdSecs,
           timestamp := entry.createdAt }] }
  else tab

/-- `parseComposerData` (parser.go and part_017, identical): only head
composers are converted. -/
def parseComposerData (value : Json) : Except String (List ChatTab) :=
  match decodeComposerData value with
  | .error _ => .error "failed to parse composer data"
  | .ok composerData =>
    .ok (composerData.allComposers.filterMap fun composer =>
      if composer.type == "head" then some (composerEntryToTab composer) else none)

/-! ## Generations parser (src/unnamed/part_017 only) -/

/-- `AIServiceGeneration`: the richer aiService.generations record. -/
structure AIServiceGeneration where
  unixMs : Int
  generationUUID : String
  type : String
  textDescription : String
  conversationId : String := ""
  role : String := ""
deriving DecidableEq, Repr

/-- Unmarshal one `AIServiceGeneration` from a JSON document. -/
def decodeGeneration : Json → Except String AIServiceGeneration
  | .null => .ok { unixMs := 0, generationUUID := "", type := "", textDescription := "" }
  | .obj f => do
    let unixMs ← Json.asInt (Json.getField f "unixMs")
    let generationUUID ← Json.asString (Json.getField f "generationUUID")
    let type ← Json.asString (Json.getField f "type")
    let textDescription ← Json.asString (Json.getField f "textDescription")
    let conversationId ← Json.asString (Json.getField f "conversationId")
    let role ← Json.asString (Json.getField f "role")
    .ok { unixMs, generationUUID, type, textDescription, conversationId, role }
  | _ => .error "json: cannot unmarshal value into AIServiceGeneration"

/-- Unmarshal a `[]AIServiceGeneration`: null yields the nil slice. -/
def decodeGenerationList : Json → Except String (List AIServiceGeneration)
  | .null => .ok []
  | .arr es => es.mapM decodeGeneration
  | _ => .error "json: cannot unmarshal value into []AIServiceGeneration"

/-- The grouping key of one generation: the conversation id, falling
back to the generation UUID. -/
def genKey (gen : AIServiceGeneration) : String :=
  let key := gen.conversationId
  if key == "" then gen.generationUUID else key

/-- The generations considered at all: only `type == "composer"` records
(AI chat pane interactions) enter the conversation map. -/
def composerGens (generations : List AIServiceGeneration) : List AIServiceGeneration :=
  generations.filter fun gen => gen.type == "composer"

/-- The keys of the conversation map in first-insertion order. Go map
iteration order is unspecified; this fixes one order. -/
def groupKeys (generations : List AIServiceGeneration) : List String :=
  (composerGens generations).foldl
    (fun acc gen => if acc.contains (genKey gen) then acc else acc ++ [genKey gen]) []

/-- The generation group stored under one key of the conversation map,
in append order. -/
def groupOf (generations : List AIServiceGeneration) (key : String) : List AIServiceGeneration :=
  (composerGens generations).filter fun gen => genKey gen == key

/-- Ascending sort by `unixMs`, modelling the `sort.Slice` call. -/
def sortGens (gens : List AIServiceGeneration) : List AIServiceGeneration :=
  gens.mergeSort fun a b => decide (a.unixMs ≤ b.unixMs)

/-- The message built from one indexed generation of a sorted group:
only generations with non-empty text yield a message (the index counts
every generation of the sorted group, also the skipped ones). -/
def genMessageOf (ig : Nat × AIServiceGeneration) : Option Message :=
  if ig.2.textDescription != "" then
    some { id := ig.2.generationUUID,
           role := determineRoleFromContent ig.2.textDescription ig.1,
           content := ig.2.textDescription,
           timestamp := ig.2.unixMs,
           createdAt := some (Int.tdiv ig.2.unixMs 1000) }
  else none

/-- The loop body of `parseAIServiceGenerations` for one conversation
group: sort by timestamp, one message per generation with non-empty
text, and drop groups producing no message. The conversation timestamp
is the last sorted generation, the id and creation instant come from
the first. -/
def buildGenTab (composerTitles : List (String × String))
    (convGenerations : List AIServiceGeneration) : Option ChatTab :=
  if convGenerations.length = 0 then none
  else
    let sorted := sortGens convGenerations
    let messages := sorted.enum.filterMap genMessageOf
    if messages.length = 0 then none
    else
      let title := "AI Service Chat"
      let title :=
        if composerTitles.length == 1 then
          match composerTitles with
          | (_, t) :: _ => t
          | [] => title
        else title
      match sorted with
      | [] => none
      | first :: rest =>
        some { id := "generations-" ++ toString first.unixMs,
               title, messages,
               timestamp := ((first :: rest).getLast (by simp)).unixMs,
               createdAt := some (Int.tdiv first.unixMs 1000) }

/-- `parseAIServiceGenerations` (part_017): group the composer-type
generations by conversation key and convert each group. -/
def parseAIServiceGenerations (value : Json)
    (composerTitles : List (String × String)) : Except String (List ChatTab) :=
  match decodeGenerationList value with
  | .error _ => .error "failed to parse AI service generations"
  | .ok generations =>
    if generations.length = 0 then .ok []
    else .ok ((groupKeys generations).filterMap fun key =>
      buildGenTab composerTitles (groupOf generations key))

/-! ## Store reader (the WorkspaceReader file embedded in
src/cmd/cmctl/cmd/reload_chat.go) -/

/-- One workspace store: the `ItemTable` rows, key to JSON value. Keys
are the primary key of the table, hence unique per store. -/
abbrev Store := List (String × Json)

/-- The `First` lookup of a key in the item table. -/
def storeLookup (store : Store) (key : String) : Option Json :=
  (store.find? fun kv => kv.1 == key).map fun kv => kv.2

/-- Insertion of one binding into a Go `map[string]string`, modelled as
an association list in insertion order. -/
def mapInsert (m : List (String × String)) (k v : String) : List (String × String) :=
  if m.any (fun kv => kv.1 == k) then
    m.map fun kv => if kv.1 == k then (k, v) else kv
  else m ++ [(k, v)]

/-- The title pre-extraction step of `GetChatData`: the composer data is
decoded first, purely for the map composerID to non-empty name. Lookup
and decode failures leave the map empty. -/
def extractComposerTitles (store : Store) : List (String × String) :=
  match storeLookup store "composer.composerData" with
  | none => []
  | some value =>
    match decodeComposerData value with
    | .error _ => []
    | .ok composerData =>
      composerData.allComposers.foldl
        (fun acc composer =>
          if composer.name != "" then mapInsert acc composer.composerId composer.name else acc)
        []

/-- The fixed, ordered key list tried by `GetChatData`. -/
def chatKeys : List String :=
  ["workbench.panel.aichat.view.aichat.chatdata",
   "aiService.prompts",
   "composer.composerData"]

/-- Unmarshal one `ChatTab` from a JSON document. -/
def decodeChatTab : Json → Except String ChatTab
  | .null => .ok { id := "", title := "", messages := [], timestamp := 0 }
  | .obj f => do
    let id ← Json.asString (Json.getField f "id")
    let title ← Json.asString (Json.getField f "title")
    let messages ← match Json.getField f "messages" with
      | none => pure []
      | some v => decodeMessageList v
    let timestamp ← Json.asInt (Json.getField f "timestamp")
    let createdAt ← Json.asTime (Json.getField f "createdAt")
    let updatedAt ← Json.asTime (Json.getField f "updatedAt")
    .ok { id, title, messages, timestamp, createdAt, updatedAt }
  | _ => .error "json: cannot unmarshal value into ChatTab"

/-- Unmarshal `ChatData` (the modern chatdata format) from a JSON document. -/
def decodeChatData : Json → Except String ChatData
  | .null => .ok { tabs := [] }
  | .obj f => do
    let tabs ← match Json.getField f "tabs" with
      | none => pure []
      | some .null => pure []
      | some (.arr es) => es.mapM decodeChatTab
      | some _ => Except.error "json: cannot unmarshal value into []ChatTab"
    .ok { tabs }
  | _ => .error "json: cannot unmarshal value into ChatData"

/-- The loop body of `GetChatData` for one candidate key: an absent key
contributes nothing; a present key is dispatched to its parser and a
failed or empty parse contributes nothing. The prompts parser bound
here is the part_017 variant (the parser.go variant panics on the nil
chat pointer, see the C9 theorems). -/
def keyContribution (now : Int) (composerTitles : List (String × String))
    (store : Store) (key : String) : List ChatTab :=
  match storeLookup store key with
  | none => []
  | some value =>
    if key == "workbench.panel.aichat.view.aichat.chatdata" then
      match decodeChatData value with
      | .ok tempData => tempData.tabs
      | .error _ => []
    else if key == "aiService.prompts" then
      match V2.parseAIServicePromptsWithTitles now value composerTitles with
      | .ok tabs => if tabs.length > 0 then tabs else []
      | .error _ => []
    else if key == "composer.composerData" then
      match parseComposerData value with
      | .ok tabs => if tabs.length > 0 then tabs else []
      | .error _ => []
    else
      match decodeChatData value with
      | .ok tempData => tempData.tabs
      | .error _ => []

/-- `GetChatData`: pre-extract composer titles, then try the candidate
keys in order, appending every contribution. -/
def getChatData (now : Int) (store : Store) : ChatData :=
  let composerTitles := extractComposerTitles store
  { tabs := chatKeys.foldl (fun tabs key => tabs ++ keyContribution now composerTitles store key) [] }

/-! ## Reader facade (same file): cross-workspace operations -/

/-- One discovered workspace: the path of its store file, and the store
when it can be opened (`none`: the open fails, e.g. a corrupted file). -/
structure WorkspaceFS where
  path : String
  store : Option Store

/-- `ChatTabWithWorkspace`: a chat tab tagged with workspace info. -/
structure ChatTabWithWorkspace where
  chatTab : ChatTab
  workspacePath : String
  workspaceName : String
deriving DecidableEq, Repr

/-- `OpenWorkspaceDB` followed by `GetChatData` on one workspace: the
only error of `GetChatData` is a store that cannot be opened. -/
def openAndGetChatData (now : Int) (w : WorkspaceFS) : Except String ChatData :=
  match w.store with
  | none => .error "failed to open workspace database"
  | some store => .ok (getChatData now store)

/-- `filepath.Base` for slash-separated paths (the forms exercised here
contain no trailing slash). -/
def filepathBase (p : String) : String :=
  match (p.splitOn "/").reverse with
  | [] => ""
  | last :: _ => last

/-- `filepath.Dir` for slash-separated paths. -/
def filepathDir (p : String) : String :=
  String.intercalate "/" (p.splitOn "/").dropLast

/-- The workspace name: base name of the directory holding the store file. -/
def workspaceNameOf (p : String) : String := filepathBase (filepathDir p)

/-- `GetChatByID`: scan the workspaces in locator order, skipping any
workspace whose store fails to open, and return the first tab carrying
the id together with the workspace path. -/
def getChatByID (now : Int) (workspaces : List WorkspaceFS) (chatID : String) :
    Except String (ChatTab × String) :=
  match workspaces with
  | [] => .error ("chat with ID " ++ chatID ++ " not found")
  | w :: rest =>
    match openAndGetChatData now w with
    | .error _ => getChatByID now rest chatID
    | .ok chatData =>
      match chatData.tabs.find? (fun tab => tab.id == chatID) with
      | some tab => .ok (tab, w.path)
      | none => getChatByID now rest chatID

/-- The per-workspace step of `ListAllChats`: a workspace that fails to
open contributes nothing; a readable one contributes its tabs tagged
with path and name. -/
def taggedTabs (now : Int) (w : WorkspaceFS) : List ChatTabWithWorkspace :=
  match openAndGetChatData now w with
  | .error _ => []
  | .ok chatData =>
    chatData.tabs.map fun tab =>
      { chatTab := tab, workspacePath := w.path, workspaceName := workspaceNameOf w.path }

/-- The descending-timestamp comparison of the `sort.Slice` call in
`ListAllChats`. -/
def tsDesc (a b : ChatTabWithWorkspace) : Bool :=
  decide (b.chatTab.timestamp ≤ a.chatTab.timestamp)

/-- `ListAllChats`: union of all readable workspaces, newest first. -/
def listAllChats (now : Int) (workspaces : List WorkspaceFS) :
    Except String (List ChatTabWithWorkspace) :=
  .ok (((workspaces.map (taggedTabs now)).flatten).mergeSort tsDesc)

/-! ## Display title and markdown rendering (models.go) -/

/-- `GetDisplayTitle`: the stored title; else the first user message
with content, truncated at 50 characters; else the literal fallback. -/
def GetDisplayTitle (ct : ChatTab) : String :=
  if ct.title != "" then ct.title
  else
    match ct.messages.find? (fun msg => msg.role == "user" && msg.content.length > 0) with
    | some msg =>
      if msg.content.length > 50 then msg.content.take 47 ++ "..." else msg.content
    | none => "Untitled Chat"

/-- `ToMarkdown`: title header, optional date line, then one line per
message. The source repairs a zero `CreatedAt` from `Timestamp` before
rendering the date. -/
def ToMarkdown (ct : ChatTab) : String :=
  let md := "# " ++ GetDisplayTitle ct ++ "\n\n"
  let createdAt :=
    if ct.createdAt == none && ct.timestamp > 0 then some (Int.tdiv ct.timestamp 1000)
    else ct.createdAt
  let md :=
    match createdAt with
    | some secs => md ++ "**Date**: " ++ formatDateTime secs ++ "\n\n"
    | none => md
  ct.messages.foldl
    (fun md msg =>
      if msg.role == "user" then md ++ "**User**: " ++ msg.content ++ "\n\n"
      else if msg.role == "assistant" then md ++ "**Assistant**: " ++ msg.content ++ "\n\n"
      else md ++ "**" ++ msg.role ++ "**: " ++ msg.content ++ "\n\n")
    md

/-- The `technicalTerms` list of `ExtractTechnicalConcepts`. -/
def technicalTerms : List String :=
  ["javascript", "typescript", "python", "java", "go", "rust", "cpp", "c++",
   "html", "css", "sql", "bash", "shell", "authentication", "authorization",
   "api", "database", "frontend", "backend", "microservices", "docker",
   "kubernetes", "deployment", "testing", "debugging", "performance",
   "optimization", "security", "encryption", "validation", "refactoring",
   "react", "vue", "angular", "nodejs", "express", "fastapi", "django",
   "flask", "spring", "laravel", "rails", "nextjs", "svelte"]

/-- `ExtractTechnicalConcepts`: the terms occurring in the rendered
markdown, in term-list order (the term list is duplicate-free, so the
seen-set of the source is the identity here). -/
def ExtractTechnicalConcepts (ct : ChatTab) : List String :=
  let fullContent := ToMarkdown ct
  technicalTerms.filter fun term => containsIgnoreCase fullContent term

/-! ## Memory-name generation (src/cmd/cmctl/cmd/import_cursor_chat.go) -/

/-- `cleanChatTitle`: trim whitespace and the two conventional prefixes;
the title is otherwise kept verbatim. -/
def cleanChatTitle (title : String) : String :=
  let title := trimSpace title
  let title := trimPrefixGo title "Chat: "
  let title := trimPrefixGo title "Discussion: "
  title

/-- The per-message condition under which the first-sentence loop of
`generateChatMemoryName` produces a name: a user message with non-empty
trimmed content, not a file reference, whose trimmed first sentence
exceeds 10 characters. -/
def firstSentenceCandidate (msg : Message) : Bool :=
  msg.role == "user" && (trimSpace msg.content).length > 0 &&
    !(("@").isPrefixOf (trimSpace msg.content)) &&
    (trimSpace (((trimSpace msg.content).splitOn ".").headD "")).length > 10

/-- `generateChatMemoryName`: keep a meaningful display title; else name
from the first suitable user message sentence (60-character cap with
ellipsis, then title-cased); else from detected technical concepts; else
a date-stamped session name; else the literal final fallback. -/
def generateChatMemoryName (chatTab : ChatTab) : String :=
  let title := GetDisplayTitle chatTab
  if title != "Untitled Chat" && title != "AI Service Chat" && title.length > 0 then
    cleanChatTitle title
  else
    match chatTab.messages.find? firstSentenceCandidate with
    | some msg =>
      let content := trimSpace msg.content
      let firstSentence := trimSpace ((content.splitOn ".").headD "")
      let firstSentence :=
        if firstSentence.length > 60 then firstSentence.take 57 ++ "..." else firstSentence
      titleCase (toLower firstSentence)
    | none =>
      let concepts := ExtractTechnicalConcepts chatTab
      match concepts with
      | primaryConcept :: restConcepts =>
        if restConcepts.length > 0 then titleCase primaryConcept ++ " Development Discussion"
        else titleCase primaryConcept ++ " Chat"
      | [] =>
        if chatTab.timestamp > 0 then
          "Development Session " ++ formatDateOnly (Int.tdiv chatTab.timestamp 1000)
        else "Cursor Chat Session"

/-! ## Concrete inputs used by the closed theorems -/

/-- A valid aiService.generations value holding one chat-type generation. -/
def exGenerationsValue : Json :=
  Json.arr [Json.obj [("unixMs", Json.num 5), ("generationUUID", Json.str "g1"),
                      ("type", Json.str "composer"), ("textDescription", Json.str "hello")]]

/-- A store whose only row is the generations key. -/
def exGenerationsStore : Store := [("aiService.generations", exGenerationsValue)]

/-- A chatdata value with one tab of id `X` and one message. -/
def exChatdataValue : Json :=
  Json.obj [("tabs", Json.arr [Json.obj
    [("id", Json.str "X"), ("title", Json.str "A"),
     ("messages", Json.arr [Json.obj
       [("id", Json.str "m1"), ("role", Json.str "user"),
        ("content", Json.str "hi"), ("timestamp", Json.num 1)]]),
     ("timestamp", Json.num 1)]])]

/-- A composer value with one head composer, also of id `X`. -/
def exComposerValue : Json :=
  Json.obj [("allComposers", Json.arr [Json.obj
    [("type", Json.str "head"), ("composerId", Json.str "X"),
     ("name", Json.str "T"), ("createdAt", Json.num 2)]])]

/-- A store carrying the same conversation id under two keys. -/
def exDupStore : Store :=
  [("workbench.panel.aichat.view.aichat.chatdata", exChatdataValue),
   ("composer.composerData", exComposerValue)]

/-- A marker-free content string of 250 characters. -/
def exLongContent : String := String.mk (List.replicate 250 'a')

/-- Two short prompts, neither with an explicit role nor a marker. -/
def exTwoShortPrompts : Json :=
  Json.arr [Json.obj [("text", Json.str "hi")], Json.obj [("text", Json.str "ok")]]

/-- One prompt at even index whose content carries a code fence, an
unambiguous assistant marker. -/
def exMarkerPrompt : Json := Json.arr [Json.obj [("text", Json.str "```code```")]]

/-- One prompt carrying an explicit message timestamp. -/
def exTimestampedPrompt : Json :=
  Json.arr [Json.obj [("text", Json.str "hi"), ("timestamp", Json.num 5)]]

/-- The chat tab produced by the V1 prompts parser on
`exTwoShortPrompts` at clock 7. -/
def exV1TwoTab : ChatTab :=
  { id := "ai-service-7", title := "AI Service Chat",
    messages :=
      [{ id := "prompt-0", role := "user", content := "hi", timestamp := 7000 },
       { id := "prompt-1", role := "assistant", content := "ok", timestamp := 7000 }],
    timestamp := 7000, createdAt := some 7 }

/-- The chat tab produced by the V2 prompts parser on
`exTwoShortPrompts` at clock 3. -/
def exV2TwoTab : ChatTab :=
  { id := "ai-service-3", title := "AI Service Chat",
    messages :=
      [{ id := "prompt-0", role := "user", content := "hi", timestamp := 3000 },
       { id := "prompt-1", role := "user", content := "ok", timestamp := 3000 }],
    timestamp := 3000, createdAt := some 3 }

/-- A conversation whose stored title is a single blank. -/
def exBlankTitleTab : ChatTab := { id := "x", title := " ", messages := [], timestamp := 0 }

/-- A conversation with a meaningful stored title. -/
def exTitledTab : ChatTab := { id := "t", title := "My Chat", messages := [], timestamp := 0 }

/-- A conversation with no stored title and no user message. -/
def exAssistantOnlyTab : ChatTab :=
  { id := "y", title := "",
    messages :=
      [{ id := "m1", role := "assistant", content := "Hello there", timestamp := 1 },
       { id := "m2", role := "system", content := "note", timestamp := 2 }],
    timestamp := 3 }

/-- The composer entry stored in the third example workspace. -/
def exComposerEntry : ComposerEntry :=
  { type := "head", composerId := "X", name := "T", createdAt := 2,
    unifiedMode := "", forceMode := "", hasUnreadMessages := false, messages := [] }

/-- The chat tab the reader derives for the third example workspace. -/
def exW3Tab : ChatTab := composerEntryToTab exComposerEntry

/-- Workspace one: readable, empty store. -/
def exW1 : WorkspaceFS := { path := "root/ws1/state.vscdb", store := some [] }

/-- Workspace two: the store file cannot be opened. -/
def exW2 : WorkspaceFS := { path := "root/ws2/state.vscdb", store := none }

/-- Workspace three: readable, holds the conversation `X`. -/
def exW3 : WorkspaceFS :=
  { path := "root/ws3/state.vscdb", store := some [("composer.composerData", exComposerValue)] }

/-! ## Support lemmas -/

/-- The role classifier only ever produces the two roles. -/
theorem determineRoleFromContent_mem (content : String) (i : Nat) :
    determineRoleFromContent content i = "assistant" ∨
    determineRoleFromContent content i = "user" := by
  unfold determineRoleFromContent
  split
  · exact Or.inl rfl
  · split
    · exact Or.inr rfl
    · split
      · exact Or.inl rfl
      · exact Or.inr rfl

theorem buildSingleChatV1_ok_some {now : Int} {prompts : List AIServicePrompt} {tab : ChatTab}
    (h : V1.buildSingleChat now prompts = .ok (some tab)) :
    tab.messages = prompts.enum.map (fun ip => V1.promptToMessage now ip.1 ip.2) ∧
    tab.timestamp = now * 1000 := by
  unfold V1.buildSingleChat at h
  split at h
  · exact absurd h (by simp)
  · simp only [Except.ok.injEq, Option.some.injEq] at h
    subst h
    exact ⟨rfl, rfl⟩

theorem buildSingleChatV2_ok_some {now : Int} {prompts : List AIServicePrompt} {tab : ChatTab}
    (h : V2.buildSingleChat now prompts = .ok (some tab)) :
    tab.messages = prompts.enum.map (fun ip => V2.promptToMessage now ip.1 ip.2) ∧
    tab.timestamp = now * 1000 := by
  unfold V2.buildSingleChat at h
  split at h
  · exact absurd h (by simp)
  · simp only [Except.ok.injEq, Option.some.injEq] at h
    subst h
    exact ⟨rfl, rfl⟩

theorem parseV1_ok_some {now : Int} {value : Json} {tab : ChatTab}
    (h : V1.parseAIServicePromptsToSingleChat now value = .ok (some tab)) :
    ∃ prompts, V1.buildSingleChat now prompts = .ok (some tab) ∧
      (decodePromptList value = .ok prompts ∨
        ((∃ e, decodePromptList value = .error e) ∧
          ∃ p, prompts = [p] ∧ decodePrompt value = .ok p)) := by
  unfold V1.parseAIServicePromptsToSingleChat at h
  split at h
  · next prompts hdec => exact ⟨prompts, h, Or.inl hdec⟩
  · next e hdec =>
    split at h
    · next p hp => exact ⟨[p], h, Or.inr ⟨⟨e, hdec⟩, p, rfl, hp⟩⟩
    · exact absurd h (by simp)

theorem parseV2_ok_some {now : Int} {value : Json} {tab : ChatTab}
    (h : V2.parseAIServicePromptsToSingleChat now value = .ok (some tab)) :
    ∃ prompts, V2.buildSingleChat now prompts = .ok (some tab) ∧
      (decodePromptList value = .ok prompts ∨
        ((∃ e, decodePromptList value = .error e) ∧
          ∃ p, prompts = [p] ∧ decodePrompt value = .ok p)) := by
  unfold V2.parseAIServicePromptsToSingleChat at h
  split at h
  · next prompts hdec => exact ⟨prompts, h, Or.inl hdec⟩
  · next e hdec =>
    split at h
    · next p hp => exact ⟨[p], h, Or.inr ⟨⟨e, hdec⟩, p, rfl, hp⟩⟩
    · exact absurd h (by simp)

/-! ## Claim C2: precedence of the content-based role classifier -/

/-- C2 (amended): the classifier applies, in order, assistant markers,
then user markers, then the length heuristic with threshold 300 (not
200 as claimed), else user. -/
theorem roleClassifier_precedence_threshold300 (content : String) (i : Nat) :
    (containsAssistantMarkers content = true →
      determineRoleFromContent content i = "assistant") ∧
    (containsAssistantMarkers content = false → containsUserMarkers content = true →
      determineRoleFromContent content i = "user") ∧
    (containsAssistantMarkers content = false → containsUserMarkers content = false →
      content.length > 300 → determineRoleFromContent content i = "assistant") ∧
    (containsAssistantMarkers content = false → containsUserMarkers content = false →
      ¬ content.length > 300 → determineRoleFromContent content i = "user") := by
  refine ⟨fun h1 => ?_, fun h1 h2 => ?_, fun h1 h2 h3 => ?_, fun h1 h2 h3 => ?_⟩ <;>
    simp [determineRoleFromContent, h1]
  · simp [h2]
  · simp [h2, h3]
  · simp [h2]
    omega

/-- C2 witness: a marker-free three-character content is classified user
through the final rule. -/
theorem roleClassifier_precedence_threshold300_witness :
    determineRoleFromContent "zzz" 0 = "user" :=
  (roleClassifier_precedence_threshold300 "zzz" 0).2.2.2 (by decide) (by decide) (by decide)

set_option maxRecDepth 100000 in
/-- C2 counterexample: a marker-free content of 250 characters exceeds
the claimed 200-character threshold, yet the classifier returns user,
because the implemented threshold is 300. -/
theorem roleClassifier_length250_returns_user :
    containsAssistantMarkers exLongContent = false ∧
    containsUserMarkers exLongContent = false ∧
    exLongContent.length > 200 ∧
    determineRoleFromContent exLongContent 0 = "user" := by
  exact ⟨by decide, by decide, by decide, by decide⟩

/-! ## Claim C9: the empty prompt array -/

/-- C9: on the empty JSON prompt array, the parser.go variant of
`parseAIServicePromptsWithTitles` dereferences the nil chat pointer and
panics (modelled `none`); the part_017 variant carries the fix and
returns zero conversations with no error. -/
theorem promptsWithTitles_empty_array_v1_panics :
    V1.parseAIServicePromptsWithTitles 0 (Json.arr []) [] = none ∧
    V2.parseAIServicePromptsWithTitles 0 (Json.arr []) [] = .ok [] :=
  ⟨rfl, rfl⟩

/-! ## Claim C8: conversation timestamps -/

/-- `getLast?` of an enumerated filterMap when the final element maps to
a value. -/
theorem filterMap_enum_getLast {α β : Type} (init : List α) (a : α) (f : Nat × α → Option β)
    (b : β) (hf : f (init.length, a) = some b) :
    ((init ++ [a]).enum.filterMap f).getLast? = some b := by
  rw [List.enum_append]
  have h1 : List.enumFrom init.length [a] = [(init.length, a)] := by simp
  rw [h1, List.filterMap_append]
  simp [List.filterMap, hf, List.getLast?_concat]

/-- The message list of a sorted group ends in the message of the last
generation whenever that generation carries text. -/
theorem genMessages_getLast (L : List AIServiceGeneration) (hL : L ≠ [])
    (htext : (L.getLast hL).textDescription ≠ "") :
    ∃ m, (L.enum.filterMap genMessageOf).getLast? = some m ∧
      m.timestamp = (L.getLast hL).unixMs := by
  induction L using List.reverseRecOn with
  | nil => exact absurd rfl hL
  | append_singleton init a _ =>
    have hlast : (init ++ [a]).getLast (by simp) = a := List.getLast_append_singleton init
    rw [hlast] at htext
    refine ⟨{ id := a.generationUUID,
              role := determineRoleFromContent a.textDescription init.length,
              content := a.textDescription,
              timestamp := a.unixMs,
              createdAt := some (Int.tdiv a.unixMs 1000) }, ?_, ?_⟩
    · exact filterMap_enum_getLast init a genMessageOf _ (by simp [genMessageOf, htext])
    · rw [hlast]

/-- C8 (amended): the prompts parser stamps the conversation with the
clock at parse time, regardless of message timestamps; the composer
parser uses the composer creation time, which is the timestamp of the
unique synthesized message when the composer carries no messages; the
generations parser uses the last sorted generation, whose timestamp is
the last message timestamp whenever that generation carries text. -/
theorem conversation_timestamp_assignment :
    (∀ now value tab, V2.parseAIServicePromptsToSingleChat now value = .ok (some tab) →
      tab.timestamp = now * 1000) ∧
    (∀ entry : ComposerEntry, (composerEntryToTab entry).timestamp = entry.createdAt ∧
      (entry.messages = [] → ∃ m, (composerEntryToTab entry).messages = [m] ∧
        m.timestamp = entry.createdAt)) ∧
    (∀ titles g tab, buildGenTab titles g = some tab →
      ∃ gLast, (sortGens g).getLast? = some gLast ∧ tab.timestamp = gLast.unixMs ∧
        (gLast.textDescription ≠ "" → ∃ m, tab.messages.getLast? = some m ∧
          m.timestamp = gLast.unixMs)) := by
  refine ⟨?_, ?_, ?_⟩
  · intro now value tab h
    obtain ⟨prompts, hb, _⟩ := parseV2_ok_some h
    exact (buildSingleChatV2_ok_some hb).2
  · intro entry
    constructor
    · unfold composerEntryToTab
      dsimp only
      split <;> rfl
    · intro hm
      unfold composerEntryToTab
      dsimp only
      rw [if_pos (by simp [hm])]
      exact ⟨_, rfl, rfl⟩
  · intro titles g tab h
    unfold buildGenTab at h
    split at h
    · exact absurd h (by simp)
    · dsimp only at h
      split at h
      · exact absurd h (by simp)
      · split at h
        · exact absurd h (by simp)
        · next first rest hsorted =>
          simp only [Option.some.injEq] at h
          subst h
          refine ⟨(first :: rest).getLast (by simp), ?_, rfl, ?_⟩
          · rw [hsorted]
            exact List.getLast?_eq_getLast_of_ne_nil (by simp)
          · intro htext
            dsimp only
            rw [hsorted]
            exact genMessages_getLast (first :: rest) (by simp) htext

/-- C8 witness: on two plain prompts at clock 3, the produced chat
carries timestamp 3000. -/
theorem conversation_timestamp_assignment_witness :
    exV2TwoTab.timestamp = 3 * 1000 :=
  conversation_timestamp_assignment.1 3 exTwoShortPrompts exV2TwoTab rfl

/-- C8 counterexample: one prompt with message timestamp 5 parsed at
clock 1 yields a conversation whose timestamp is 1000, not the last
message timestamp 5. -/
theorem prompts_timestamp_ignores_last_message :
    V2.parseAIServicePromptsToSingleChat 1 exTimestampedPrompt =
      .ok (some { id := "ai-service-1", title := "AI Service Chat",
                  messages := [{ id := "prompt-0", role := "user", content := "hi", timestamp := 5 }],
                  timestamp := 1000, createdAt := some 1 }) ∧
    (1000 : Int) ≠ 5 :=
  ⟨rfl, by decide⟩


/-! ## Claim C3: role assignment of the flat prompt-list parser -/

theorem string_length_zero {s : String} (h : s.length = 0) : s = "" := by
  cases s with
  | mk data =>
    cases data
    · rfl
    · simp [String.length] at h

theorem promptToMessageV1_content (now : Int) (i : Nat) (p : AIServicePrompt) :
    (V1.promptToMessage now i p).content = p.text := rfl

theorem promptToMessageV2_content (now : Int) (i : Nat) (p : AIServicePrompt) :
    (V2.promptToMessage now i p).content = p.text := rfl

theorem promptToMessageV1_role (now : Int) (i : Nat) (p : AIServicePrompt)
    (h : p.role = "") :
    (V1.promptToMessage now i p).role = if i % 2 = 1 then "assistant" else "user" := by
  unfold V1.promptToMessage
  have h1 : (p.role != "") = false := by simp [h]
  by_cases h2 : i % 2 = 1
  · have h3 : (i % 2 == 1) = true := by simpa using h2
    simp [h1, h2, h3]
  · have h3 : (i % 2 == 1) = false := by simpa using h2
    simp [h1, h2, h3]

theorem promptToMessageV2_role (now : Int) (i : Nat) (p : AIServicePrompt)
    (h : p.role = "") :
    (V2.promptToMessage now i p).role =
      if 200 < p.text.length ∨ containsAssistantMarkers p.text = true
      then "assistant" else "user" := by
  unfold V2.promptToMessage
  have h1 : (p.role != "") = false := by simp [h]
  by_cases h0 : 0 < p.text.length
  · by_cases hlen : 200 < p.text.length
    · simp [h1, h0, hlen]
    · by_cases hmark : containsAssistantMarkers p.text = true
      · simp [h1, h0, hlen, hmark]
      · simp [h1, h0, hlen, hmark]
  · have he : p.text = "" := string_length_zero (by omega)
    have hmark : containsAssistantMarkers "" = false := by decide
    simp [h1, h0, he, hmark]

/-- C3 (amended): in the parser.go variant, the parity default (even
user, odd assistant) is the whole rule for prompts with no explicit
role, and the content classifier is never consulted; in the part_017
variant the index parity is ignored entirely and the role is assistant
exactly when the content exceeds 200 characters or carries an
assistant marker. -/
theorem prompts_role_parity_vs_heuristic :
    (∀ (now : Int) (value : Json) (prompts : List AIServicePrompt) (tab : ChatTab),
      V1.parseAIServicePromptsToSingleChat now value = .ok (some tab) →
      decodePromptList value = .ok prompts →
      (∀ p ∈ prompts, p.role = "") →
      ∀ (i : Nat) (m : Message), tab.messages[i]? = some m →
        m.role = if i % 2 = 1 then "assistant" else "user") ∧
    (∀ (now : Int) (value : Json) (prompts : List AIServicePrompt) (tab : ChatTab),
      V2.parseAIServicePromptsToSingleChat now value = .ok (some tab) →
      decodePromptList value = .ok prompts →
      (∀ p ∈ prompts, p.role = "") →
      ∀ (i : Nat) (m : Message), tab.messages[i]? = some m →
        m.role = if 200 < m.content.length ∨ containsAssistantMarkers m.content = true
          then "assistant" else "user") := by
  constructor
  · intro now value prompts tab hparse hdec hroles i m hm
    obtain ⟨prompts2, hb, hcase⟩ := parseV1_ok_some hparse
    obtain rfl : prompts = prompts2 := by
      rcases hcase with hd | ⟨⟨e, he⟩, _⟩
      · rw [hdec] at hd
        exact Except.ok.inj hd
      · rw [hdec] at he
        cases he
    have hmsg := (buildSingleChatV1_ok_some hb).1
    rw [hmsg, List.getElem?_map, List.getElem?_enum] at hm
    match hp : prompts[i]? with
    | none => rw [hp] at hm; cases hm
    | some p =>
      rw [hp] at hm
      simp only [Option.map_some', Option.some.injEq] at hm
      have hrole : p.role = "" := hroles p (List.getElem?_mem hp)
      subst hm
      exact promptToMessageV1_role now i p hrole
  · intro now value prompts tab hparse hdec hroles i m hm
    obtain ⟨prompts2, hb, hcase⟩ := parseV2_ok_some hparse
    obtain rfl : prompts = prompts2 := by
      rcases hcase with hd | ⟨⟨e, he⟩, _⟩
      · rw [hdec] at hd
        exact Except.ok.inj hd
      · rw [hdec] at he
        cases he
    have hmsg := (buildSingleChatV2_ok_some hb).1
    rw [hmsg, List.getElem?_map, List.getElem?_enum] at hm
    match hp : prompts[i]? with
    | none => rw [hp] at hm; cases hm
    | some p =>
      rw [hp] at hm
      simp only [Option.map_some', Option.some.injEq] at hm
      have hrole : p.role = "" := hroles p (List.getElem?_mem hp)
      subst hm
      rw [promptToMessageV2_content]
      exact promptToMessageV2_role now i p hrole

/-- C3 witness: on two plain prompts the parser.go variant assigns
assistant to the message at odd index 1. -/
theorem prompts_role_parity_vs_heuristic_witness :
    V1.parseAIServicePromptsToSingleChat 7 exTwoShortPrompts = .ok (some exV1TwoTab) ∧
    ({ id := "prompt-1", role := "assistant", content := "ok", timestamp := 7000 } : Message).role
      = if 1 % 2 = 1 then "assistant" else "user" :=
  ⟨rfl,
    prompts_role_parity_vs_heuristic.1 7 exTwoShortPrompts
      [{ text := "hi" }, { text := "ok" }] exV1TwoTab rfl rfl (by decide) 1
      { id := "prompt-1", role := "assistant", content := "ok", timestamp := 7000 } rfl⟩

/-- C3 counterexample: the part_017 variant gives the marker-free
message at odd index 1 the role user (the claim demands assistant), and
the parser.go variant gives an even-index message carrying an
unambiguous assistant marker the role user (the claim demands the
classifier override to assistant). -/
theorem prompts_role_claim_counterexample :
    (V2.parseAIServicePromptsToSingleChat 3 exTwoShortPrompts = .ok (some exV2TwoTab) ∧
      exV2TwoTab.messages[1]?.map Message.role = some "user" ∧
      containsAssistantMarkers "ok" = false ∧ containsUserMarkers "ok" = false) ∧
    (∃ tab, V1.parseAIServicePromptsToSingleChat 1 exMarkerPrompt = .ok (some tab) ∧
      tab.messages[0]?.map Message.role = some "user" ∧
      containsAssistantMarkers "```code```" = true) := by
  exact ⟨⟨rfl, rfl, by decide, by decide⟩, ⟨_, rfl, rfl, by decide⟩⟩

/-! ## Claim C1: keys queried by the store reader -/

/-- C1 (amended): `GetChatData` looks up exactly three keys, in the
order chatdata, aiService.prompts, composer.composerData, appending
every contribution without short-circuiting; the aiService.generations
key is never queried and a row under it changes nothing. -/
theorem getChatData_key_order (now : Int) (store : Store) :
    ((getChatData now store).tabs =
      keyContribution now (extractComposerTitles store) store
        "workbench.panel.aichat.view.aichat.chatdata" ++
      keyContribution now (extractComposerTitles store) store "aiService.prompts" ++
      keyContribution now (extractComposerTitles store) store "composer.composerData") ∧
    ∀ v, getChatData now (("aiService.generations", v) :: store) = getChatData now store := by
  constructor
  · unfold getChatData chatKeys
    simp [List.foldl, List.append_assoc]
  · intro v
    have hL : ∀ k, k ≠ "aiService.generations" →
        storeLookup (("aiService.generations", v) :: store) k = storeLookup store k := by
      intro k hk
      unfold storeLookup
      rw [List.find?_cons]
      have : (("aiService.generations", v).1 == k) = false := by
        simp only [beq_eq_false_iff_ne, ne_eq]
        exact fun h => hk h.symm
      rw [this]
    have h1 : extractComposerTitles (("aiService.generations", v) :: store) =
        extractComposerTitles store := by
      unfold extractComposerTitles
      rw [hL _ (by decide)]
    have h2 : ∀ titles key, key ≠ "aiService.generations" →
        keyContribution now titles (("aiService.generations", v) :: store) key =
        keyContribution now titles store key := by
      intro titles key hk
      unfold keyContribution
      rw [hL key hk]
    unfold getChatData chatKeys
    simp only [List.foldl]
    rw [h1, h2 _ _ (by decide), h2 _ _ (by decide), h2 _ _ (by decide)]

unseal List.merge List.mergeSort in
/-- C1 counterexample: a store holding only a valid
aiService.generations value yields zero conversations from
`GetChatData`, although the generations parser extracts a conversation
from that very value: the claimed fourth key is never queried. -/
theorem generations_key_not_queried :
    (getChatData 0 exGenerationsStore).tabs = [] ∧
    parseAIServiceGenerations exGenerationsValue [] =
      .ok [{ id := "generations-5", title := "AI Service Chat",
             messages := [{ id := "g1", role := "user", content := "hello",
                            timestamp := 5, createdAt := some 0 }],
             timestamp := 5, createdAt := some 0 }] :=
  ⟨rfl, rfl⟩

/-! ## Claim C4: no deduplication of colliding conversation ids -/

/-- C4 (amended): no deduplication is performed anywhere in the read
path: the listing retains every parsed conversation, id collisions
included, so the count of any id is the count in the concatenation of
the per-workspace contributions. -/
theorem listAllChats_retains_duplicate_ids (now : Int) (workspaces : List WorkspaceFS)
    (id : String) :
    ∃ l, listAllChats now workspaces = .ok l ∧
      l.countP (fun c => c.chatTab.id == id) =
        ((workspaces.map (taggedTabs now)).flatten).countP (fun c => c.chatTab.id == id) :=
  ⟨_, rfl, (List.mergeSort_perm _ _).countP_eq _⟩

/-- C4 counterexample: a workspace store carrying the same conversation
id under the chatdata key and the composer key returns two
conversations with that id, not one. -/
theorem duplicate_id_not_collapsed :
    ((getChatData 0 exDupStore).tabs.map ChatTab.id) = ["X", "X"] ∧ (2 : Nat) ≠ 1 :=
  ⟨rfl, by decide⟩

/-! ## Claim C5: the title resolution chain -/

/-- C5 counterexample: a conversation with no messages whose stored
title is one blank resolves to the empty string: `cleanChatTitle` trims
the kept display title away, so the resolved title is neither non-empty
nor the claimed final fallback. -/
theorem blank_title_resolves_empty :
    generateChatMemoryName exBlankTitleTab = "" ∧
    exBlankTitleTab.messages = [] ∧
    ("" : String) ≠ "Untitled Chat" :=
  ⟨rfl, rfl, by decide⟩

/-- C5 (amended): title resolution applies exactly the first applicable
rule of the implemented chain. (1) A uniquely supplied composer title
hint replaces the conversation title at parse time. Then, in
`generateChatMemoryName`: (2) a display title (the stored title, else
the first user message truncated at 50 characters) that is non-empty
and neither placeholder is kept, trimmed by `cleanChatTitle`; (3) else
the first sentence of the first suitable user message, truncated to 60
characters with an ellipsis, lowercased and title-cased; (4) else the
first detected technical concept, as Development Discussion for
several concepts or Chat for one; (5) else the date-stamped session
name when the timestamp is positive; (6) else the literal final
fallback Cursor Chat Session. -/
theorem memoryName_resolution_chain :
    (∀ (tab : ChatTab) (k t : String),
      applyComposerTitles tab [(k, t)] = { tab with title := t }) ∧
    (∀ ct : ChatTab,
      (GetDisplayTitle ct ≠ "Untitled Chat" → GetDisplayTitle ct ≠ "AI Service Chat" →
        0 < (GetDisplayTitle ct).length →
        generateChatMemoryName ct = cleanChatTitle (GetDisplayTitle ct)) ∧
      ((GetDisplayTitle ct = "Untitled Chat" ∨ GetDisplayTitle ct = "AI Service Chat" ∨
          (GetDisplayTitle ct).length = 0) →
        (∀ msg, ct.messages.find? firstSentenceCandidate = some msg →
          generateChatMemoryName ct =
            titleCase (toLower
              (if (trimSpace (((trimSpace msg.content).splitOn ".").headD "")).length > 60 then
                (trimSpace (((trimSpace msg.content).splitOn ".").headD "")).take 57 ++ "..."
               else trimSpace (((trimSpace msg.content).splitOn ".").headD "")))) ∧
        (ct.messages.find? firstSentenceCandidate = none →
          (∀ c rest, ExtractTechnicalConcepts ct = c :: rest →
            generateChatMemoryName ct =
              if rest.length > 0 then titleCase c ++ " Development Discussion"
              else titleCase c ++ " Chat") ∧
          (ExtractTechnicalConcepts ct = [] → 0 < ct.timestamp →
            generateChatMemoryName ct =
              "Development Session " ++ formatDateOnly (Int.tdiv ct.timestamp 1000)) ∧
          (ExtractTechnicalConcepts ct = [] → ¬ 0 < ct.timestamp →
            generateChatMemoryName ct = "Cursor Chat Session")))) := by
  constructor
  · intro tab k t
    unfold applyComposerTitles
    simp
  · intro ct
    constructor
    · intro h1 h2 h3
      simp only [generateChatMemoryName]
      split
      · rfl
      · next hguard =>
        exfalso
        apply hguard
        simp only [Bool.and_eq_true, bne_iff_ne, ne_eq, decide_eq_true_eq]
        tauto
    · intro hdis
      refine ⟨?_, ?_⟩
      · intro msg hfind
        simp only [generateChatMemoryName]
        split
        · next hguard =>
          exfalso
          simp only [Bool.and_eq_true, bne_iff_ne, ne_eq, decide_eq_true_eq] at hguard
          rcases hdis with h | h | h
          · tauto
          · tauto
          · omega
        · rw [hfind]
      · intro hnone
        refine ⟨?_, ?_, ?_⟩
        · intro c rest hconc
          simp only [generateChatMemoryName]
          split
          · next hguard =>
            exfalso
            simp only [Bool.and_eq_true, bne_iff_ne, ne_eq, decide_eq_true_eq] at hguard
            rcases hdis with h | h | h
            · tauto
            · tauto
            · omega
          · rw [hnone, hconc]
        · intro hconc hts
          simp only [generateChatMemoryName]
          split
          · next hguard =>
            exfalso
            simp only [Bool.and_eq_true, bne_iff_ne, ne_eq, decide_eq_true_eq] at hguard
            rcases hdis with h | h | h
            · tauto
            · tauto
            · omega
          · rw [hnone, hconc]
        · intro hconc hts
          simp only [generateChatMemoryName]
          split
          · next hguard =>
            exfalso
            simp only [Bool.and_eq_true, bne_iff_ne, ne_eq, decide_eq_true_eq] at hguard
            rcases hdis with h | h | h
            · tauto
            · tauto
            · omega
          · rw [hnone, hconc]

/-- C5 witness: a single hint replaces the title; a meaningful stored
title is kept through `cleanChatTitle`; the empty conversation with
timestamp zero falls through to the literal final fallback. -/
theorem memoryName_resolution_chain_witness :
    applyComposerTitles exBlankTitleTab [("id1", "My Title")] =
      { exBlankTitleTab with title := "My Title" } ∧
    generateChatMemoryName exTitledTab = cleanChatTitle (GetDisplayTitle exTitledTab) ∧
    generateChatMemoryName { id := "x", title := "", messages := [], timestamp := 0 } =
      "Cursor Chat Session" := by
  refine ⟨memoryName_resolution_chain.1 exBlankTitleTab "id1" "My Title", ?_, ?_⟩
  · exact (memoryName_resolution_chain.2 exTitledTab).1 (by decide) (by decide) (by decide)
  · exact ((((memoryName_resolution_chain.2
        { id := "x", title := "", messages := [], timestamp := 0 }).2
      (Or.inl rfl)).2 rfl).2.2) (by decide) (by decide)

/-! ## Claim C10: the display title of conversations without user content -/

/-- C10: with an empty stored title and no user message with non-empty
content, the display title is the literal fallback, whatever assistant
or system messages are present. -/
theorem displayTitle_untitled_without_user_content (ct : ChatTab) (h1 : ct.title = "")
    (h2 : ∀ m ∈ ct.messages, ¬(m.role = "user" ∧ 0 < m.content.length)) :
    GetDisplayTitle ct = "Untitled Chat" := by
  unfold GetDisplayTitle
  have ht : (ct.title != "") = false := by simp [h1]
  rw [ht]
  have hf : ct.messages.find? (fun msg => msg.role == "user" && msg.content.length > 0) = none := by
    rw [List.find?_eq_none]
    intro m hm
    have := h2 m hm
    simp only [Bool.and_eq_true, beq_iff_eq, decide_eq_true_eq, not_and]
    intro hr
    exact fun hc => this ⟨hr, hc⟩
  rw [hf]
  simp

/-- C10 witness: a conversation holding only assistant and system
messages resolves to the literal fallback. -/
theorem displayTitle_untitled_without_user_content_witness :
    GetDisplayTitle exAssistantOnlyTab = "Untitled Chat" :=
  displayTitle_untitled_without_user_content exAssistantOnlyTab rfl (by decide)

/-! ## Claim C6: resilience and ordering of the cross-workspace listing -/

/-- C6: `ListAllChats` never errors over a given workspace list; the
result is a permutation of the tagged tabs of the readable workspaces
(unreadable ones contribute nothing, by `taggedTabs`), sorted by
descending timestamp. -/
theorem listAllChats_skips_failures_sorted (now : Int) (workspaces : List WorkspaceFS) :
    ∃ l, listAllChats now workspaces = .ok l ∧
      l.Perm ((workspaces.map (taggedTabs now)).flatten) ∧
      l.Sorted (fun a b => b.chatTab.timestamp ≤ a.chatTab.timestamp) := by
  refine ⟨_, rfl, List.mergeSort_perm _ _, ?_⟩
  have h := @List.sorted_mergeSort _ tsDesc
    (fun a b c hab hbc => by
      simp only [tsDesc, decide_eq_true_eq] at *
      omega)
    (fun a b => by
      simp only [tsDesc]
      rcases le_total b.chatTab.timestamp a.chatTab.timestamp with h | h <;> simp [h])
    ((workspaces.map (taggedTabs now)).flatten)
  exact h.imp fun hab => by simpa [tsDesc] using hab

/-! ## Claim C7: lookup of one chat id across workspaces -/

/-- `GetChatByID` errors exactly when no readable workspace holds the id. -/
theorem getChatByID_error_iff (now : Int) (workspaces : List WorkspaceFS) (chatID : String) :
    (∃ e, getChatByID now workspaces chatID = .error e) ↔
      ∀ w ∈ workspaces, ∀ s, w.store = some s →
        ∀ tab ∈ (getChatData now s).tabs, tab.id ≠ chatID := by
  induction workspaces with
  | nil =>
    constructor
    · intro _ w hw
      exact absurd hw (List.not_mem_nil w)
    · intro _
      exact ⟨_, rfl⟩
  | cons w rest ih =>
    unfold getChatByID
    cases hw : w.store with
    | none =>
      simp only [openAndGetChatData, hw]
      rw [ih]
      simp [List.forall_mem_cons, hw]
    | some s =>
      simp only [openAndGetChatData, hw]
      cases hf : (getChatData now s).tabs.find? (fun tab => tab.id == chatID) with
      | none =>
        show (∃ e, getChatByID now rest chatID = Except.error e) ↔ _
        rw [ih]
        have hnone : ∀ tab ∈ (getChatData now s).tabs, tab.id ≠ chatID := by
          intro t ht
          have := List.find?_eq_none.mp hf t ht
          simpa using this
        simp only [List.forall_mem_cons, hw, Option.some.injEq]
        constructor
        · intro hrest
          refine ⟨?_, hrest⟩
          intro s2 hs2
          subst hs2
          exact hnone
        · intro hall
          exact hall.2
      | some tab =>
        constructor
        · rintro ⟨e, he⟩
          exact absurd he (by simp)
        · intro hall
          exfalso
          have hmem := List.mem_of_find?_eq_some hf
          have heq : tab.id = chatID := by simpa using List.find?_some hf
          exact hall w (by simp) s hw tab hmem heq

/-- `GetChatByID` returns the first matching tab of the first readable
workspace holding the id, tagged with that workspace path. -/
theorem getChatByID_first_match (now : Int) (chatID : String) (pre : List WorkspaceFS)
    (w : WorkspaceFS) (post : List WorkspaceFS) (s : Store) (tab : ChatTab)
    (hpre : ∀ w2 ∈ pre, ∀ s2, w2.store = some s2 →
      ∀ t ∈ (getChatData now s2).tabs, t.id ≠ chatID)
    (hw : w.store = some s)
    (hfind : (getChatData now s).tabs.find? (fun t => t.id == chatID) = some tab) :
    getChatByID now (pre ++ w :: post) chatID = .ok (tab, w.path) := by
  induction pre with
  | nil =>
    unfold getChatByID
    simp only [List.nil_append, openAndGetChatData, hw, hfind]
  | cons w2 rest ih =>
    have hw2 := hpre w2 (by simp)
    rw [List.cons_append]
    unfold getChatByID
    cases hw2s : w2.store with
    | none =>
      simp only [openAndGetChatData, hw2s]
      exact ih fun w3 h3 => hpre w3 (by simp [h3])
    | some s2 =>
      have hnone : (getChatData now s2).tabs.find? (fun t => t.id == chatID) = none := by
        rw [List.find?_eq_none]
        intro t ht
        simpa using hw2 s2 hw2s t ht
      simp only [openAndGetChatData, hw2s, hnone]
      exact ih fun w3 h3 => hpre w3 (by simp [h3])

/-- C7: scanning skips unreadable workspaces; the not-found error comes
exactly when no readable workspace holds the id, and otherwise the
first matching tab of the first readable workspace holding the id is
returned together with that workspace path. -/
theorem getChatByID_spec (now : Int) (workspaces : List WorkspaceFS) (chatID : String) :
    ((∃ e, getChatByID now workspaces chatID = .error e) ↔
      ∀ w ∈ workspaces, ∀ s, w.store = some s →
        ∀ tab ∈ (getChatData now s).tabs, tab.id ≠ chatID) ∧
    (∀ pre w post s tab,
      workspaces = pre ++ w :: post →
      (∀ w2 ∈ pre, ∀ s2, w2.store = some s2 →
        ∀ t ∈ (getChatData now s2).tabs, t.id ≠ chatID) →
      w.store = some s →
      (getChatData now s).tabs.find? (fun t => t.id == chatID) = some tab →
      getChatByID now workspaces chatID = .ok (tab, w.path)) :=
  ⟨getChatByID_error_iff now workspaces chatID,
   fun pre w post s tab hws hpre hw hfind =>
     hws ▸ getChatByID_first_match now chatID pre w post s tab hpre hw hfind⟩

/-- C7 witness: over three workspaces, the second unreadable and the id
only in the third, the lookup succeeds and returns the third workspace
path. -/
theorem getChatByID_spec_witness :
    getChatByID 0 [exW1, exW2, exW3] "X" = .ok (exW3Tab, exW3.path) := by
  refine (getChatByID_spec 0 [exW1, exW2, exW3] "X").2 [exW1, exW2] exW3 []
    [("composer.composerData", exComposerValue)] exW3Tab rfl ?_ rfl rfl
  intro w2 hw2 s2 hs2 t ht
  rcases List.mem_cons.mp hw2 with rfl | h2
  · have hs : s2 = [] := by
      have : some ([] : Store) = some s2 := hs2
      exact (Option.some.inj this).symm
    subst hs
    have : (getChatData 0 ([] : Store)).tabs = [] := rfl
    rw [this] at ht
    exact absurd ht (List.not_mem_nil t)
  · rcases List.mem_cons.mp h2 with rfl | h3
    · exact absurd hs2 (by simp [exW2])
    · exact absurd h3 (List.not_mem_nil w2)
